import Mathlib

/-!
Verification development for the slack-channel-cleanup repository.

The Python sources are shallowly embedded as executable Lean definitions:

* `src/src/channel_actions.py` — the `ChannelAction` enumeration and the
  `ChannelActionHandler` (`execute_action`, `archive_channel`,
  `rename_channel`).  The Slack `WebClient` is modelled as a `ClientEnv`
  value recording, for each API endpoint the handler may call, whether the
  call returns a payload, raises a `SlackApiError` with an error code, or
  raises a generic exception.
* `src/src/channel_data.py` — the ledger-row model (`Row`),
  `create_channel_dict` and `validate_channel`.
* `src/slack_channel_curator.py` — the reconciliation merge performed in
  `main` (drop rows for ids no longer live, refresh description/name,
  append newly discovered channels with action `new`).
* `src/src/channel_manager.py` — `action_priority` with the executor's
  priority sort, `process_single_channel`, and the cache-write behaviour
  of `get_all_channels` (modelled with an explicit effect trace).

Strings: Python `str.lower` / `str.islower` / `str.isdigit` are modelled on
the ASCII range (`Char.toLower` per character, explicit ranges); the
theorems that depend on character classes restrict names to ASCII, where
the Python and Lean notions agree.
-/

namespace SlackCleanup

/-- Decidable equality for `Except`, so validation outcomes can be
compared by `decide`. -/
instance {ε α : Type} [DecidableEq ε] [DecidableEq α] : DecidableEq (Except ε α) := fun a b =>
  match a, b with
  | .ok x, .ok y =>
    if h : x = y then .isTrue (by rw [h]) else .isFalse (fun hh => h (Except.ok.inj hh))
  | .error x, .error y =>
    if h : x = y then .isTrue (by rw [h]) else .isFalse (fun hh => h (Except.error.inj hh))
  | .ok _, .error _ => .isFalse (fun hh => Except.noConfusion hh)
  | .error _, .ok _ => .isFalse (fun hh => Except.noConfusion hh)

/-- Python `str.lower`, modelled per character on the ASCII range
(`Char.toLower` maps exactly `A`-`Z` to `a`-`z`). -/
def pyLower (s : String) : String :=
  ⟨s.data.map Char.toLower⟩

/-- Modelled from the spec: the repository snapshot's
`src/src/channel_actions.py` defines `ChannelAction` with only
`KEEP`/`ARCHIVE`/`RENAME`, but `channel_data.py` (`create_channel_dict`,
`validate_channel`), `slack_channel_curator.py` and `sheet_manager.py` all
reference `ChannelAction.NEW`, so the enum variant those modules were
written against (the one defining `NEW`) is not in `src/`.  Following the
spec's closed set "keep (no-op, default), new (newly discovered), archive
(optionally with a redirect target), rename (requires a new name)", the
enumeration is modelled with exactly those four members. -/
inductive ChannelAction where
  | keep
  | new
  | archive
  | rename
deriving DecidableEq

/-- The string value of an action (the Python enum is a `str` enum). -/
def ChannelAction.value : ChannelAction → String
  | .keep => "keep"
  | .new => "new"
  | .archive => "archive"
  | .rename => "rename"

/-- `ChannelAction.values()` from `channel_actions.py`: the list of
recognised action strings. -/
def ChannelAction.values : List String :=
  ["keep", "new", "archive", "rename"]

/-- A ledger row, with the column set of `CHANNEL_HEADERS` in
`channel_data.py`.  Every cell is a string, as in a CSV row; a missing
cell is modelled as the empty string (Python reads it with
`channel.get(key, '')`). -/
structure Row where
  channel_id : String
  name : String
  description : String
  is_private : String
  is_shared : String
  member_count : String
  created_date : String
  last_activity : String
  action : String
  target_value : String
  notes : String
deriving DecidableEq

/-- A live channel as returned by the Slack API, restricted to the fields
the curator reads.  `is_private`, `is_shared`, `member_count` and
`created_date` are carried as the already-stringified values
`create_channel_dict` would store (`str(...).lower()`, date formatting);
`latest` is the computed `last_activity` date string. -/
structure LiveCh where
  id : String
  name : String
  purpose : String
  is_private : String
  is_shared : String
  member_count : String
  created_date : String
  latest : String
deriving DecidableEq

/-- `create_channel_dict` from `channel_data.py`: build a standardized
ledger row from Slack channel data.  `action` is `new` for newly
discovered channels and `keep` otherwise; `target_value` and `notes`
start empty. -/
def create_channel_dict (c : LiveCh) (is_new : Bool) : Row :=
  { channel_id := c.id
    name := c.name
    description := c.purpose
    is_private := c.is_private
    is_shared := c.is_shared
    member_count := c.member_count
    created_date := c.created_date
    last_activity := c.latest
    action := if is_new then ChannelAction.new.value else ChannelAction.keep.value
    target_value := ""
    notes := "" }

/-- The validation errors `validate_channel` can raise (each constructor is
one `raise ValueError` site in `channel_data.py`; `errMessage` reproduces
the message text). -/
inductive VErr where
  | invalidAction (action name : String)
  | sharedArchive (name : String)
  | targetMustBeEmpty (action name : String)
  | targetRequired (action name : String)
deriving DecidableEq

/-- The `ValueError` message carried by each validation error. -/
def VErr.errMessage : VErr → String
  | .invalidAction a n =>
      "Invalid action '" ++ a ++ "' for channel " ++ n ++
        ". Must be one of: keep, new, archive, rename"
  | .sharedArchive n =>
      "Cannot archive shared channel " ++ n ++
        ". Slack Connect channels must be disconnected by workspace admins first."
  | .targetMustBeEmpty a n =>
      "Target value must be empty for '" ++ a ++ "' action on channel " ++ n
  | .targetRequired a n =>
      "Target value is required for " ++ a ++ " action on channel " ++ n

/-- The action string `validate_channel` works with:
`channel.get('action', '').lower() or ChannelAction.KEEP.value`
(lower-cased, and defaulting to `keep` when empty/missing). -/
def effAction (r : Row) : String :=
  let a := pyLower r.action
  if a = "" then ChannelAction.keep.value else a

/-- `validate_channel` from `channel_data.py` (called with
`validate_headers=False`, as `read_channels_from_csv` does; the header
check is vacuous for the fixed `Row` column set).  The checks, in source
order: recognised action; no archiving of shared channels; empty target
for `keep`/`new`; required target for `rename`. -/
def validate_channel (r : Row) : Except VErr Unit :=
  if effAction r ∈ ChannelAction.values then
    if effAction r = ChannelAction.archive.value ∧ pyLower r.is_shared = "true" then
      .error (.sharedArchive r.name)
    else if (effAction r = ChannelAction.keep.value ∨ effAction r = ChannelAction.new.value)
        ∧ r.target_value ≠ "" then
      .error (.targetMustBeEmpty (effAction r) r.name)
    else if effAction r = ChannelAction.rename.value ∧ r.target_value = "" then
      .error (.targetRequired (effAction r) r.name)
    else
      .ok ()
  else
    .error (.invalidAction (effAction r) r.name)

/-! ### Reconciliation merge (`slack_channel_curator.py`, `main`)

After reading the ledger and fetching `current_channels`, the curator
performs, in order:
1. `existing_ids = {ch["channel_id"] for ch in channels}` (before any drop);
2. `current_ids = {ch["id"] for ch in current_channels}`;
3. drop ledger rows whose `channel_id` is not in `current_ids`;
4. for each live channel, find the first matching ledger row and refresh
   its `description` (via `create_channel_dict(..., is_new=False)`), and
   its `name` unless the row's `action` equals `"rename"`;
5. append `create_channel_dict(ch, is_new=True)` for live channels whose
   id is not in `existing_ids`. -/

/-- The in-place refresh step 4 applied to one matching row: description
from live, name from live unless a rename is pending; all other columns
(in particular `action` and `target_value`) untouched. -/
def refreshRow (r : Row) (c : LiveCh) : Row :=
  { r with
    description := (create_channel_dict c false).description
    name := if r.action = ChannelAction.rename.value then r.name else c.name }

/-- Refresh the first ledger row whose `channel_id` matches the live
channel (the curator's `next((ch for ch in channels if ...), None)`
followed by in-place mutation); rows after the first match are left
alone, and a channel with no match changes nothing. -/
def refreshFirst (c : LiveCh) : List Row → List Row
  | [] => []
  | r :: rs => if r.channel_id = c.id then refreshRow r c :: rs else r :: refreshFirst c rs

/-- The full reconciliation merge of `slack_channel_curator.py` `main`
(steps 1-5 above). -/
def reconcile (ledger : List Row) (live : List LiveCh) : List Row :=
  let existingIds := ledger.map Row.channel_id
  let currentIds := live.map LiveCh.id
  let kept := ledger.filter fun r => decide (r.channel_id ∈ currentIds)
  let refreshed := live.foldl (fun acc c => refreshFirst c acc) kept
  refreshed ++ (live.filter fun c => decide (c.id ∉ existingIds)).map (create_channel_dict · true)

/-- First ledger row with the given channel id (used to state the
reconciliation theorems). -/
def getFirst (i : String) : List Row → Option Row
  | [] => none
  | r :: rs => if r.channel_id = i then some r else getFirst i rs

/-! ### Executor priority sort (`channel_manager.py`, `execute_channel_actions`) -/

/-- `action_priority` from `execute_channel_actions`: missing action 3,
`keep` 2, `rename` 0, `archive` 1, anything else 3. -/
def action_priority (ch : Row) : Nat :=
  let action := pyLower ch.action
  if action = "" then 3
  else if action = ChannelAction.keep.value then 2
  else if action = ChannelAction.rename.value then 0
  else if action = ChannelAction.archive.value then 1
  else 3

/-- `sorted(channels, key=action_priority)` — Python's stable sort by the
priority key, modelled with the stable `List.mergeSort`. -/
def sortPending (l : List Row) : List Row :=
  l.mergeSort fun a b => decide (action_priority a ≤ action_priority b)

/-! ### Action handler (`channel_actions.py`)

The Slack `WebClient` is modelled as a record of per-endpoint outcomes:
each endpoint either returns its payload, raises `SlackApiError` with an
error code, or raises a generic exception. -/

/-- Outcome of one API call: success payload, `SlackApiError` with an
error code, or a generic exception with a message. -/
inductive Api (α : Type) where
  | ok (v : α)
  | apiErr (code : String)
  | exc (msg : String)
deriving DecidableEq

/-- The fields of a `conversations_info` response the handler reads. -/
structure InfoResp where
  name : String
  is_archived : Bool
  is_general : Bool
deriving DecidableEq

/-- A channel as listed by `conversations_list` (target lookup). -/
structure ConvCh where
  id : String
  name : String
  is_archived : Bool
deriving DecidableEq

/-- The fields of a `conversations_rename` response the handler reads:
the `ok` flag and the actual name Slack stored. -/
structure RenameResp where
  ok : Bool
  name : String
deriving DecidableEq

/-- The Slack client, as the outcomes of the endpoints the handler may
call.  `archiveOk` is the `ok` field of the `conversations_archive`
response when that call does not raise. -/
structure ClientEnv where
  info : Api InfoResp
  convs : Api (List ConvCh)
  joinCall : Api Unit
  postMsg : Api Unit
  archiveOk : Api Bool
  renameResp : Api RenameResp

/-- A Python exception escaping a handler method: a `SlackApiError`
(carrying its error code) or any other exception (carrying `str(e)`). -/
inductive PyExn where
  | slack (code : String)
  | generic (msg : String)
deriving DecidableEq

/-- `ChannelActionResult` from `channel_actions.py`. -/
structure ChannelActionResult where
  success : Bool
  message : String
deriving DecidableEq

/-- A side effect performed against the outside world (remote API call,
cache write); used to state the frame conditions of dry-run mode. -/
inductive Effect where
  | apiCall (endpoint : String)
  | saveCache
deriving DecidableEq

/-- The `error_messages` mapping of `archive_channel` (with its
`.get(error, default)` fallback). -/
def archiveErrMsg (channel_name code : String) : String :=
  if code = "already_archived" then "#" ++ channel_name ++ " is already archived"
  else if code = "cant_archive_general" then
    "Cannot archive #" ++ channel_name ++ ": This is the workspace's general channel"
  else if code = "cant_archive_required" then
    "Cannot archive #" ++ channel_name ++ ": This is a required channel"
  else if code = "not_in_channel" then
    "Cannot archive #" ++ channel_name ++ ": You must be a member of the channel"
  else if code = "restricted_action" then
    "Cannot archive #" ++ channel_name ++ ": Your workspace settings prevent channel archiving"
  else if code = "missing_scope" then
    "Cannot archive #" ++ channel_name ++ ": Missing required permissions. " ++
      "Need channels:write for public channels or groups:write for private channels."
  else "Failed to archive #" ++ channel_name ++ ": " ++ code

/-- The final `conversations_archive` call of `archive_channel` and the
function-level `except SlackApiError` handler.  When the response is ok
the success message is built (mentioning the redirect target when one was
given); when the response is not ok and no exception was raised, the
Python function falls off the end of the `if response["ok"]:` block and
implicitly returns `None` — modelled as `some none` result value.
`redirectSuffix` is the `if target_channel:` suffix (empty when the
stripped target is falsy). -/
def archiveFinalCall (env : ClientEnv) (channel_name redirectSuffix : String) :
    Except PyExn (Option ChannelActionResult) × List Effect :=
  (match env.archiveOk with
    | .exc m => .error (.generic m)
    | .apiErr code => .ok (some ⟨false, archiveErrMsg channel_name code⟩)
    | .ok true => .ok (some ⟨true, "Successfully archived #" ++ channel_name ++ redirectSuffix⟩)
    | .ok false => .ok none,
   [Effect.apiCall "conversations_archive"])

/-- Python `str.lstrip('#')`: drop every leading `#`. -/
def lstripHash (s : String) : String :=
  ⟨s.data.dropWhile fun c => c = '#'⟩

/-- `archive_channel` from `channel_actions.py`.  Returns the result the
Python coroutine produces (`none` for the implicit `None` fall-through)
or the exception it lets escape, together with the API calls it issued.
`SlackApiError` never escapes (every path re-raising one is caught by the
function-level handler and mapped through `archiveErrMsg`); generic
exceptions from the client escape to `execute_action`. -/
def archive_channel (env : ClientEnv) (channel_name : String)
    (target_channel : Option String) :
    Except PyExn (Option ChannelActionResult) × List Effect :=
  let e1 := [Effect.apiCall "conversations_info"]
  match env.info with
  | .exc m => (.error (.generic m), e1)
  | .apiErr code =>
    if code = "channel_not_found" then
      (.ok (some ⟨false, "Cannot archive #" ++ channel_name ++ ": Channel not found"⟩), e1)
    else
      -- re-raised, then caught by the function-level `except SlackApiError`
      (.ok (some ⟨false, archiveErrMsg channel_name code⟩), e1)
  | .ok info =>
    if info.is_archived then
      (.ok (some ⟨false, "#" ++ channel_name ++ " is already archived"⟩), e1)
    else if info.is_general then
      (.ok (some ⟨false, "Cannot archive #" ++ channel_name ++
        ": This is the workspace's general channel"⟩), e1)
    else
      match target_channel with
      | none =>
        let (res, e2) := archiveFinalCall env channel_name ""
        (res, e1 ++ e2)
      | some t0 =>
        if t0 = "" then
          -- `if target_channel:` — an empty target string is falsy
          let (res, e2) := archiveFinalCall env channel_name ""
          (res, e1 ++ e2)
        else
          let t := lstripHash t0
          let e2 := e1 ++ [Effect.apiCall "conversations_list"]
          match env.convs with
          | .exc m => (.error (.generic m), e2)
          | .apiErr _ =>
            (.ok (some ⟨false, "Cannot archive #" ++ channel_name ++
              ": Failed to verify target channel"⟩), e2)
          | .ok channels =>
            match channels.find? fun ch => decide (ch.name = t) with
            | none =>
              (.ok (some ⟨false, "Cannot archive #" ++ channel_name ++
                ": Target channel #" ++ t ++ " does not exist"⟩), e2)
            | some target =>
              if target.is_archived then
                (.ok (some ⟨false, "Cannot archive #" ++ channel_name ++
                  ": Target channel #" ++ t ++ " is archived"⟩), e2)
              else
                let e3 := e2 ++ [Effect.apiCall "conversations_join"]
                match env.joinCall with
                | .exc m => (.error (.generic m), e3)
                | _ =>
                  -- `except SlackApiError: pass` around the join
                  let e4 := e3 ++ [Effect.apiCall "chat_postMessage"]
                  let suffix := if t = "" then "" else " (with redirect to #" ++ t ++ ")"
                  match env.postMsg with
                  | .exc m => (.error (.generic m), e4)
                  | .apiErr code =>
                    if code = "not_in_channel" then
                      (.ok (some ⟨false, "Cannot archive #" ++ channel_name ++
                        ": Unable to post redirect notice (not in channel)"⟩), e4)
                    else
                      -- continue with the archive despite the failed notice
                      let (res, e5) := archiveFinalCall env channel_name suffix
                      (res, e4 ++ e5)
                  | .ok _ =>
                    let (res, e5) := archiveFinalCall env channel_name suffix
                    (res, e4 ++ e5)

/-- Python character test `c.islower()`, modelled on the ASCII range
(where it holds exactly for `a`-`z`). -/
def pyIsLower (c : Char) : Bool :=
  'a' ≤ c && c ≤ 'z'

/-- The character test of `rename_channel`:
`c.islower() or c.isdigit() or c in '-_'`. -/
def renameChar (c : Char) : Bool :=
  pyIsLower c || c.isDigit || c = '-' || c = '_'

/-- The three early-return name checks of `rename_channel` (source order:
empty, longer than 80 characters, character set / period), returning the
failure message of the first violated rule, or `none` when the name
passes all three. -/
def renameNameError (old_name new_name : String) : Option String :=
  if new_name = "" then
    some ("Cannot rename " ++ old_name ++ ": New name cannot be empty")
  else if new_name.length > 80 then
    some ("Cannot rename " ++ old_name ++ ": New name exceeds 80 characters")
  else if !(new_name.data.all renameChar) || new_name.data.contains '.' then
    some ("Cannot rename " ++ old_name ++ ": Channel names can only contain lowercase letters, " ++
      "numbers, hyphens, and underscores")
  else
    none

/-- The `error_messages` mapping of `rename_channel` (with fallback). -/
def renameErrMsg (old_name new_name code : String) : String :=
  if code = "not_authorized" then
    "You don't have permission to rename this channel. " ++
      "Only channel creators, workspace admins, or channel managers can rename channels."
  else if code = "name_taken" then
    "Cannot rename " ++ old_name ++ ": The name '" ++ new_name ++ "' is already taken"
  else if code = "invalid_name" then
    "Cannot rename " ++ old_name ++ ": Invalid channel name format"
  else if code = "not_in_channel" then
    "Cannot rename " ++ old_name ++ ": You must be a member of the channel"
  else if code = "is_archived" then
    "Cannot rename " ++ old_name ++ ": Channel is archived"
  else "Failed to rename " ++ old_name ++ ": " ++ code

/-- `rename_channel` from `channel_actions.py`: the three name checks, then
the `conversations_rename` call.  An ok response whose stored name differs
from the requested one reports the adjustment; a not-ok response without
an exception falls off the `if response["ok"]:` block and implicitly
returns `None` (modelled as a `some none` result value). -/
def rename_channel (env : ClientEnv) (old_name new_name : String) :
    Except PyExn (Option ChannelActionResult) × List Effect :=
  match renameNameError old_name new_name with
  | some msg => (.ok (some ⟨false, msg⟩), [])
  | none =>
    let e := [Effect.apiCall "conversations_rename"]
    match env.renameResp with
    | .exc m => (.error (.generic m), e)
    | .apiErr code => (.ok (some ⟨false, renameErrMsg old_name new_name code⟩), e)
    | .ok resp =>
      if resp.ok then
        if resp.name ≠ new_name then
          (.ok (some ⟨true, "Successfully renamed " ++ old_name ++ " to " ++ resp.name ++
            " (name was modified to meet Slack's requirements)"⟩), e)
        else
          (.ok (some ⟨true, "Successfully renamed " ++ old_name ++ " to " ++ new_name⟩), e)
      else (.ok none, e)

/-- `execute_action` from `channel_actions.py`: dispatch on the action
string, with the method-level `try`/`except` turning any escaped
`SlackApiError` or generic exception into a failure result.  The result
is `none` exactly when the called handler implicitly returned `None`. -/
def execute_action (env : ClientEnv) (_channel_id channel_name action : String)
    (target_value : Option String) : Option ChannelActionResult × List Effect :=
  if action = ChannelAction.keep.value then
    (some ⟨true, "Channel " ++ channel_name ++ " kept as is"⟩, [])
  else if action = ChannelAction.archive.value then
    let (res, eff) := archive_channel env channel_name target_value
    (match res with
      | .ok r => r
      | .error (.slack code) =>
        some ⟨false, "Slack API error for " ++ channel_name ++ ": " ++ code⟩
      | .error (.generic m) =>
        some ⟨false, "Unexpected error for " ++ channel_name ++ ": " ++ m⟩, eff)
  else if action = ChannelAction.rename.value then
    match target_value with
    | none => (some ⟨false, "New name not specified for renaming " ++ channel_name⟩, [])
    | some tv =>
      if tv = "" then
        (some ⟨false, "New name not specified for renaming " ++ channel_name⟩, [])
      else
        let (res, eff) := rename_channel env channel_name tv
        (match res with
          | .ok r => r
          | .error (.slack code) =>
            some ⟨false, "Slack API error for " ++ channel_name ++ ": " ++ code⟩
          | .error (.generic m) =>
            some ⟨false, "Unexpected error for " ++ channel_name ++ ": " ++ m⟩, eff)
  else
    (some ⟨false, "Unknown action '" ++ action ++ "' for channel " ++ channel_name⟩, [])

/-! ### Executor record processing (`channel_manager.py`, `process_single_channel`) -/

/-- `process_single_channel` from `channel_manager.py`: returns the result
status string (`"success"`, `"failed"` or `"skipped"`) together with the
remote calls made.  On `dry_run` it prints the would-be action and
returns `"success"` before any remote interaction.  Otherwise it
re-verifies the channel with `get_channel_info` (an empty dict on
`SlackApiError` leads to the not-found skip), skips archived or
externally renamed channels, and dispatches to `execute_action`; a `None`
result from the handler makes `result.success` raise `AttributeError`,
which the surrounding `except Exception` turns into `"skipped"`.
(The in-place `channel["name"] = target_value` bookkeeping after a
successful rename mutates only in-memory data and is not part of the
returned status.) -/
def process_single_channel (env : ClientEnv) (channel : Row) (dry_run : Bool) :
    String × List Effect :=
  let action := pyLower channel.action
  if dry_run then
    ("success", [])
  else
    let e1 := [Effect.apiCall "conversations_info"]
    match env.info with
    | .exc _ => ("skipped", e1)
    | .apiErr _ => ("skipped", e1)
    | .ok info =>
      if info.is_archived then ("skipped", e1)
      else if info.name ≠ channel.name then ("skipped", e1)
      else
        let (res, e2) := execute_action env channel.channel_id channel.name action
          (some channel.target_value)
        match res with
        | some r => (if r.success then "success" else "failed", e1 ++ e2)
        | none => ("skipped", e1 ++ e2)

/-! ### Remote enumerator (`channel_manager.py`, `get_all_channels`)

Modelled on its success path: the pagination loop is summarised by the
per-page payloads the client returns (the rate-limit retry and
authorization-error branches are not modelled — no claim touches them),
and the bounded-concurrency activity fetch by a per-channel history
lookup.  The effect trace records the remote calls and, crucially for the
dry-run claim, the `save_cache` call that `get_all_channels` guards with
`if not dry_run:`. -/

/-- A channel as accumulated by the pagination loop, with the `latest`
activity timestamp once known. -/
structure RawChannel where
  id : String
  name : String
  latest : Option String
deriving DecidableEq

/-- The enumeration environment: page payloads of `conversations_list`,
the loaded activity cache (`none` when missing or expired), and the
per-channel `conversations_history` outcome. -/
structure EnumEnv where
  pages : List (List RawChannel)
  cache : Option (List (String × String))
  history : String → Option String

/-- `get_all_channels` from `channel_manager.py` (success path): page
through the channel list dropping records with a missing id or name,
apply cached activity when the cache is used, fetch history for the
channels still lacking activity, and finally `save_cache` — unless
`dry_run` is set, in which case the cache write is skipped. -/
def get_all_channels (env : EnumEnv) (use_cache force_refresh dry_run : Bool) :
    List RawChannel × List Effect :=
  let cache := if use_cache && !force_refresh then env.cache else none
  let fetched := (env.pages.flatten).filter fun (c : RawChannel) => !(c.id = "") && !(c.name = "")
  let pageEff := env.pages.map fun _ => Effect.apiCall "conversations_list"
  let withCache :=
    match cache with
    | some entries =>
      fetched.map fun (c : RawChannel) =>
        match entries.lookup c.id with
        | some ts => { c with latest := some ts }
        | none => c
    | none => fetched
  let toFetch := withCache.filter fun (c : RawChannel) => c.latest.isNone
  let histEff := toFetch.map fun _ => Effect.apiCall "conversations_history"
  let final := withCache.map fun (c : RawChannel) =>
    if c.latest.isNone then { c with latest := env.history c.id } else c
  let saveEff := if dry_run then [] else [Effect.saveCache]
  (final, pageEff ++ histEff ++ saveEff)

/-! ### Concrete inputs used by witnesses and counterexamples -/

/-- A ledger row whose `action` cell is empty (as when the column is left
blank in the spreadsheet). -/
def rowEmptyAction : Row :=
  ⟨"C100", "misc", "", "false", "false", "3", "", "", "", "", ""⟩

/-- A ledger row with an empty `action` cell but a non-empty target. -/
def rowEmptyActionTarget : Row :=
  ⟨"C101", "misc2", "", "false", "false", "3", "", "", "", "ops", ""⟩

/-- A ledger row with the unrecognised action `merge` (the deprecated
variant). -/
def rowMergeAction : Row :=
  ⟨"C102", "legacy", "", "false", "false", "3", "", "", "merge", "", ""⟩

/-- A non-shared row with an `archive` action and a redirect target. -/
def rowArchiveRedirect : Row :=
  ⟨"C200", "legacy2", "", "false", "false", "5", "", "", "archive", "ops", ""⟩

/-- A row with a pending `rename` action. -/
def rowRenamePending : Row :=
  ⟨"C300", "old-name", "", "false", "false", "5", "", "", "rename", "new-name", ""⟩

/-- A shared channel with an `archive` action. -/
def rowSharedArchive : Row :=
  ⟨"C400", "ext", "", "false", "true", "5", "", "", "archive", "", ""⟩

/-- A shared channel with a `rename` action. -/
def rowSharedRename : Row :=
  ⟨"C401", "ext2", "", "false", "true", "5", "", "", "rename", "next", ""⟩

/-- Live channel A of the spec's reconciliation scenario. -/
def liveA : LiveCh :=
  ⟨"1", "general", "The general channel", "false", "false", "12", "2020-01-01", "2024-01-01"⟩

/-- Live channel B of the spec's reconciliation scenario (still named
`old-name` remotely). -/
def liveB : LiveCh :=
  ⟨"2", "old-name", "B purpose", "false", "false", "5", "2021-01-01", "2024-01-02"⟩

/-- Ledger row for A with a stale description and no pending action. -/
def rowA : Row :=
  ⟨"1", "general", "stale general desc", "false", "false", "12", "2020-01-01", "",
    "keep", "", ""⟩

/-- Ledger row for B with a pending rename to `new-name`. -/
def rowB : Row :=
  ⟨"2", "old-name", "stale B desc", "false", "false", "5", "2021-01-01", "",
    "rename", "new-name", ""⟩

/-- A client whose `conversations_archive` call returns a response with
`ok = false` without raising; every other endpoint succeeds. -/
def envArchiveNotOk : ClientEnv :=
  { info := .ok ⟨"legacy", false, false⟩
    convs := .ok []
    joinCall := .ok ()
    postMsg := .ok ()
    archiveOk := .ok false
    renameResp := .ok ⟨false, ""⟩ }

/-- A client on which every call succeeds (`conversations_rename` stores
the name `general` unchanged). -/
def envAllOk : ClientEnv :=
  { info := .ok ⟨"legacy", false, false⟩
    convs := .ok []
    joinCall := .ok ()
    postMsg := .ok ()
    archiveOk := .ok true
    renameResp := .ok ⟨true, "general"⟩ }

/-! ### Helper lemmas about the reconciliation merge -/

theorem refreshRow_channel_id (r : Row) (c : LiveCh) :
    (refreshRow r c).channel_id = r.channel_id := rfl

theorem refreshRow_idem (r : Row) (c : LiveCh) :
    refreshRow (refreshRow r c) c = refreshRow r c := by
  unfold refreshRow
  by_cases h : r.action = ChannelAction.rename.value <;> simp [h, create_channel_dict]

theorem refreshRow_new (c : LiveCh) :
    refreshRow (create_channel_dict c true) c = create_channel_dict c true := by
  simp [refreshRow, create_channel_dict, ChannelAction.value]

theorem refreshFirst_map_channel_id (c : LiveCh) (l : List Row) :
    (refreshFirst c l).map Row.channel_id = l.map Row.channel_id := by
  induction l with
  | nil => rfl
  | cons r rs ih =>
    unfold refreshFirst
    split_ifs with h <;> simp [refreshRow_channel_id, ih]

theorem foldl_refreshFirst_map_channel_id (live : List LiveCh) (l : List Row) :
    (live.foldl (fun acc c => refreshFirst c acc) l).map Row.channel_id =
      l.map Row.channel_id := by
  induction live generalizing l with
  | nil => rfl
  | cons c cs ih => simp [List.foldl_cons, ih, refreshFirst_map_channel_id]

theorem getFirst_refreshFirst_self (c : LiveCh) (l : List Row) :
    getFirst c.id (refreshFirst c l) = (getFirst c.id l).map fun r => refreshRow r c := by
  induction l with
  | nil => rfl
  | cons r rs ih =>
    unfold refreshFirst
    split_ifs with h
    · simp [getFirst, refreshRow_channel_id, h]
    · simp [getFirst, h, ih]

theorem getFirst_refreshFirst_ne {j : String} (c : LiveCh) (hne : j ≠ c.id) (l : List Row) :
    getFirst j (refreshFirst c l) = getFirst j l := by
  induction l with
  | nil => rfl
  | cons r rs ih =>
    unfold refreshFirst
    split_ifs with h
    · have h1 : ¬ (refreshRow r c).channel_id = j := by
        rw [refreshRow_channel_id, h]
        exact fun hh => hne hh.symm
      have h2 : ¬ c.id = j := fun hh => hne hh.symm
      simp [getFirst, h1, h, h2]
    · simp [getFirst, ih]

theorem refreshFirst_eq_self {c : LiveCh} {l : List Row}
    (h : ∀ r, getFirst c.id l = some r → refreshRow r c = r) :
    refreshFirst c l = l := by
  induction l with
  | nil => rfl
  | cons r rs ih =>
    unfold refreshFirst
    split_ifs with hr
    · rw [h r (by simp [getFirst, hr])]
    · rw [ih]
      intro r' h'
      exact h r' (by simp [getFirst, hr, h'])

theorem foldl_getFirst_ne {j : String} {live : List LiveCh}
    (h : ∀ c ∈ live, c.id ≠ j) (l : List Row) :
    getFirst j (live.foldl (fun acc c => refreshFirst c acc) l) = getFirst j l := by
  induction live generalizing l with
  | nil => rfl
  | cons c cs ih =>
    simp only [List.foldl_cons]
    rw [ih (fun c' hc' => h c' (List.mem_cons_of_mem _ hc')),
      getFirst_refreshFirst_ne c (fun hh => h c (List.mem_cons_self _ _) hh.symm)]

theorem getFirst_cons (j : String) (r : Row) (rs : List Row) :
    getFirst j (r :: rs) = if r.channel_id = j then some r else getFirst j rs := rfl

theorem getFirst_eq_none {j : String} {l : List Row} :
    getFirst j l = none ↔ j ∉ l.map Row.channel_id := by
  induction l with
  | nil => simp [getFirst]
  | cons r rs ih =>
    unfold getFirst
    split_ifs with h
    · simp [h]
    · have h' : j ≠ r.channel_id := fun hh => h hh.symm
      simp [h', ih]

theorem getFirst_mem {j : String} {l : List Row} {r : Row}
    (h : getFirst j l = some r) : r ∈ l ∧ r.channel_id = j := by
  induction l with
  | nil => simp [getFirst] at h
  | cons r' rs ih =>
    unfold getFirst at h
    split_ifs at h with h1
    · obtain rfl : r' = r := Option.some.inj h
      exact ⟨List.mem_cons_self _ _, h1⟩
    · obtain ⟨hm, hid⟩ := ih h
      exact ⟨List.mem_cons_of_mem _ hm, hid⟩

theorem getFirst_of_nodup {l : List Row} (hn : (l.map Row.channel_id).Nodup)
    {r : Row} (hr : r ∈ l) : getFirst r.channel_id l = some r := by
  induction l with
  | nil => simp at hr
  | cons r' rs ih =>
    rcases List.mem_cons.mp hr with rfl | hm
    · simp [getFirst]
    · unfold getFirst
      split_ifs with h
      · exfalso
        have : r.channel_id ∈ rs.map Row.channel_id := List.mem_map_of_mem _ hm
        rw [← h] at this
        exact (List.nodup_cons.mp (by simpa using hn)).1 this
      · exact ih (List.nodup_cons.mp (by simpa using hn)).2 hm

theorem getFirst_append_left {j : String} {a : List Row} {r : Row}
    (h : getFirst j a = some r) (b : List Row) :
    getFirst j (a ++ b) = some r := by
  induction a with
  | nil => simp [getFirst] at h
  | cons r' rs ih =>
    rw [List.cons_append, getFirst_cons]
    rw [getFirst_cons] at h
    split_ifs at h ⊢ with h1
    · exact h
    · exact ih h

theorem getFirst_append_right {j : String} {a : List Row}
    (h : getFirst j a = none) (b : List Row) :
    getFirst j (a ++ b) = getFirst j b := by
  induction a with
  | nil => rfl
  | cons r' rs ih =>
    rw [List.cons_append, getFirst_cons]
    rw [getFirst_cons] at h
    split_ifs at h ⊢ with h1
    exact ih h

theorem getFirst_isSome_of_mem {j : String} {l : List Row}
    (h : j ∈ l.map Row.channel_id) : ∃ r, getFirst j l = some r := by
  rcases he : getFirst j l with _ | r
  · exact absurd (getFirst_eq_none.mp he) fun hh => hh h
  · exact ⟨r, rfl⟩

theorem getFirst_foldl_of_mem {live : List LiveCh} (hlive : (live.map LiveCh.id).Nodup)
    {c : LiveCh} (hc : c ∈ live) (l : List Row) :
    getFirst c.id (live.foldl (fun acc c => refreshFirst c acc) l) =
      (getFirst c.id l).map fun r => refreshRow r c := by
  obtain ⟨s, t, rfl⟩ := List.append_of_mem hc
  have hmap : (s.map LiveCh.id ++ c.id :: t.map LiveCh.id).Nodup := by
    simpa using hlive
  have hsplit := List.nodup_append.mp hmap
  have hs : ∀ x ∈ s, x.id ≠ c.id := by
    intro x hx hh
    exact hsplit.2.2 (List.mem_map_of_mem _ hx) (by simp [hh])
  have ht : ∀ x ∈ t, x.id ≠ c.id := by
    intro x hx hh
    have := (List.nodup_cons.mp hsplit.2.1).1
    exact this (by rw [← hh]; exact List.mem_map_of_mem _ hx)
  rw [List.foldl_append, List.foldl_cons]
  rw [foldl_getFirst_ne ht, getFirst_refreshFirst_self, foldl_getFirst_ne hs]

theorem foldl_refreshFirst_eq_self {live : List LiveCh} {l : List Row}
    (h : ∀ c ∈ live, refreshFirst c l = l) :
    live.foldl (fun acc c => refreshFirst c acc) l = l := by
  induction live with
  | nil => rfl
  | cons c cs ih =>
    simp only [List.foldl_cons]
    rw [h c (List.mem_cons_self _ _)]
    exact ih fun c' hc' => h c' (List.mem_cons_of_mem _ hc')

theorem reconcile_def (ledger : List Row) (live : List LiveCh) :
    reconcile ledger live =
      (live.foldl (fun acc c => refreshFirst c acc)
        (ledger.filter fun r => decide (r.channel_id ∈ live.map LiveCh.id))) ++
      ((live.filter fun c => decide (c.id ∉ ledger.map Row.channel_id)).map
        (create_channel_dict · true)) := rfl

theorem mem_reconcile_ids {ledger : List Row} {live : List LiveCh} {r : Row}
    (hr : r ∈ reconcile ledger live) : r.channel_id ∈ live.map LiveCh.id := by
  rw [reconcile_def] at hr
  rcases List.mem_append.mp hr with h | h
  · have hmap : r.channel_id ∈
        ((live.foldl (fun acc c => refreshFirst c acc)
          (ledger.filter fun r => decide (r.channel_id ∈ live.map LiveCh.id))).map
            Row.channel_id) := List.mem_map_of_mem _ h
    rw [foldl_refreshFirst_map_channel_id] at hmap
    obtain ⟨r', hr', hid⟩ := List.mem_map.mp hmap
    have := (List.mem_filter.mp hr').2
    rw [← hid]
    simpa using this
  · obtain ⟨c, hc, rfl⟩ := List.mem_map.mp h
    have hcl : c ∈ live := (List.mem_filter.mp hc).1
    exact List.mem_map_of_mem _ hcl

theorem live_id_mem_reconcile {ledger : List Row} {live : List LiveCh} {c : LiveCh}
    (hc : c ∈ live) : c.id ∈ (reconcile ledger live).map Row.channel_id := by
  rw [reconcile_def, List.map_append]
  by_cases h : c.id ∈ ledger.map Row.channel_id
  · apply List.mem_append_left
    rw [foldl_refreshFirst_map_channel_id]
    obtain ⟨r, hr, hid⟩ := List.mem_map.mp h
    apply List.mem_map.mpr
    refine ⟨r, List.mem_filter.mpr ⟨hr, ?_⟩, hid⟩
    simp only [decide_eq_true_eq, hid]
    exact List.mem_map_of_mem _ hc
  · apply List.mem_append_right
    apply List.mem_map.mpr
    refine ⟨create_channel_dict c true, ?_, rfl⟩
    apply List.mem_map.mpr
    refine ⟨c, List.mem_filter.mpr ⟨hc, ?_⟩, rfl⟩
    simpa using h

theorem reconcile_fresh {ledger : List Row} {live : List LiveCh}
    (hlive : (live.map LiveCh.id).Nodup) {c : LiveCh} (hc : c ∈ live) {r : Row}
    (h : getFirst c.id (reconcile ledger live) = some r) :
    refreshRow r c = r := by
  rw [reconcile_def] at h
  by_cases hk : c.id ∈
      ((ledger.filter fun r => decide (r.channel_id ∈ live.map LiveCh.id)).map Row.channel_id)
  · obtain ⟨r0, hr0⟩ := getFirst_isSome_of_mem hk
    have hr1 : getFirst c.id (live.foldl (fun acc c => refreshFirst c acc)
        (ledger.filter fun r => decide (r.channel_id ∈ live.map LiveCh.id))) =
        some (refreshRow r0 c) := by
      rw [getFirst_foldl_of_mem hlive hc, hr0]
      rfl
    rw [getFirst_append_left hr1] at h
    obtain rfl := Option.some.inj h
    exact refreshRow_idem r0 c
  · have hnone : getFirst c.id (live.foldl (fun acc c => refreshFirst c acc)
        (ledger.filter fun r => decide (r.channel_id ∈ live.map LiveCh.id))) = none := by
      rw [getFirst_foldl_of_mem hlive hc, getFirst_eq_none.mpr hk]
      rfl
    rw [getFirst_append_right hnone] at h
    obtain ⟨hmem, hid⟩ := getFirst_mem h
    obtain ⟨c', hc', rfl⟩ := List.mem_map.mp hmem
    have hcl : c' ∈ live := (List.mem_filter.mp hc').1
    have hcc : c' = c := List.inj_on_of_nodup_map hlive hcl hc hid
    rw [hcc]
    exact refreshRow_new c

/-! ### Character-class bridge lemmas -/

theorem isDigit_iff (c : Char) : c.isDigit = true ↔ '0' ≤ c ∧ c ≤ '9' := by
  simp only [Char.isDigit, Bool.and_eq_true, decide_eq_true_eq, ge_iff_le]
  exact Iff.rfl

theorem pyIsLower_iff (c : Char) : pyIsLower c = true ↔ 'a' ≤ c ∧ c ≤ 'z' := by
  simp [pyIsLower]

theorem renameChar_iff (c : Char) : renameChar c = true ↔
    (('a' ≤ c ∧ c ≤ 'z') ∨ ('0' ≤ c ∧ c ≤ '9') ∨ c = '-' ∨ c = '_') := by
  simp [renameChar, pyIsLower_iff, isDigit_iff, or_assoc]

/-! ### Claim theorems -/

/-- C1 (amended): `validate_channel` lowercases the action cell and treats
an empty or missing cell as `keep`.  It accepts a row exactly when the
resulting action is one of the four recognised values `keep`, `new`,
`archive`, `rename`, the target is valid for that action (`keep`/`new`
require an empty target, `rename` a non-empty one) and the row is not a
shared-channel archive; and when the resulting action is any other
(non-empty) value it rejects the row with the invalid-action ledger-read
error, never silently defaulting it. -/
theorem c1_validate_action_closed_set (r : Row) :
    (validate_channel r = Except.ok () ↔
      (effAction r ∈ ChannelAction.values ∧
       ¬(effAction r = ChannelAction.archive.value ∧ pyLower r.is_shared = "true") ∧
       ((effAction r = ChannelAction.keep.value ∨ effAction r = ChannelAction.new.value) →
          r.target_value = "") ∧
       (effAction r = ChannelAction.rename.value → r.target_value ≠ ""))) ∧
    (effAction r ∉ ChannelAction.values →
      validate_channel r = Except.error (.invalidAction (effAction r) r.name)) := by
  unfold validate_channel
  constructor
  · split_ifs with h1 h2 h3 h4 <;> simp_all
  · intro h
    simp [h]

/-- Witness for C1: the unrecognised action `merge` is rejected with the
invalid-action ledger-read error. -/
theorem c1_validate_action_closed_set_witness :
    validate_channel rowMergeAction =
      Except.error (.invalidAction (effAction rowMergeAction) rowMergeAction.name) :=
  (c1_validate_action_closed_set rowMergeAction).2 (by decide)

/-- Counterexample to C1 as stated: a row whose action cell is the empty
string is accepted by `validate_channel` (silently defaulted to `keep`)
even though the empty string is not one of the four recognised values, so
validation does not reject every row whose action is outside the closed
set. -/
theorem c1_counterexample :
    validate_channel rowEmptyAction = Except.ok () ∧
      rowEmptyAction.action ∉ ChannelAction.values := by
  decide

/-- C2: the reconciliation merge is idempotent: for every ledger and every
live entity set (entities keyed by their unique ids), reconciling twice
against the same live set gives the same ledger as reconciling once. -/
theorem c2_reconcile_idempotent (ledger : List Row) (live : List LiveCh)
    (hlive : (live.map LiveCh.id).Nodup) :
    reconcile (reconcile ledger live) live = reconcile ledger live := by
  have hfilter : (reconcile ledger live).filter
      (fun r => decide (r.channel_id ∈ live.map LiveCh.id)) = reconcile ledger live := by
    rw [List.filter_eq_self]
    intro a ha
    simpa using mem_reconcile_ids ha
  have hfold : live.foldl (fun acc c => refreshFirst c acc) (reconcile ledger live) =
      reconcile ledger live := by
    apply foldl_refreshFirst_eq_self
    intro c hc
    apply refreshFirst_eq_self
    intro r hr
    exact reconcile_fresh hlive hc hr
  have hnil : (live.filter fun c =>
      decide (c.id ∉ (reconcile ledger live).map Row.channel_id)) = [] := by
    rw [List.filter_eq_nil_iff]
    intro c hc
    simp only [decide_eq_true_eq, not_not]
    exact live_id_mem_reconcile hc
  conv_lhs => rw [reconcile_def]
  rw [hfilter, hfold, hnil]
  simp

/-- Witness for C2 on the spec's scenario ledger/live-set pair. -/
theorem c2_reconcile_idempotent_witness :
    (([liveA, liveB].map LiveCh.id).Nodup) ∧
      reconcile (reconcile [rowB] [liveA, liveB]) [liveA, liveB] =
        reconcile [rowB] [liveA, liveB] :=
  ⟨by decide, c2_reconcile_idempotent [rowB] [liveA, liveB] (by decide)⟩

/-- Counterexample to C3 as stated: an `archive` row with a redirect
target passes `validate_channel` while its action is not `rename` and its
target is non-empty, so `action = rename ⇔ target non-empty` fails in the
right-to-left direction. -/
theorem c3_counterexample :
    validate_channel rowArchiveRedirect = Except.ok () ∧
      effAction rowArchiveRedirect ≠ ChannelAction.rename.value ∧
      rowArchiveRedirect.target_value ≠ "" := by
  decide

/-- C3 (amended): for every record that passes validation and whose action
is not `archive`, the action is `rename` iff the target is non-empty and
the action is `keep` or `new` iff the target is empty; validated
`archive` records may carry either an empty or a non-empty (redirect)
target. -/
theorem c3_target_iff_nonarchive (r : Row) (hv : validate_channel r = Except.ok ())
    (ha : effAction r ≠ ChannelAction.archive.value) :
    (effAction r = ChannelAction.rename.value ↔ r.target_value ≠ "") ∧
    ((effAction r = ChannelAction.keep.value ∨ effAction r = ChannelAction.new.value) ↔
      r.target_value = "") := by
  unfold validate_channel at hv
  split_ifs at hv with h1 h2 h3 h4
  simp only [ChannelAction.values, List.mem_cons, List.mem_singleton] at h1
  rcases h1 with h | h | h | h <;>
    simp_all [ChannelAction.value]

/-- Witness for C3 on a validated rename record. -/
theorem c3_target_iff_nonarchive_witness :
    (effAction rowRenamePending = ChannelAction.rename.value ↔
      rowRenamePending.target_value ≠ "") ∧
    ((effAction rowRenamePending = ChannelAction.keep.value ∨
      effAction rowRenamePending = ChannelAction.new.value) ↔
      rowRenamePending.target_value = "") :=
  c3_target_iff_nonarchive rowRenamePending (by decide) (by decide)

/-- C4: for a ledger record matching a live entity (unique ids on both
sides), reconciliation refreshes the record's description from the live
entity and its name from the live entity unless a rename is pending, in
which case the ledger name is kept; the action and target cells (and all
other cells) are never overwritten. -/
theorem c4_reconcile_refresh (ledger : List Row) (live : List LiveCh)
    (hledger : (ledger.map Row.channel_id).Nodup)
    (hlive : (live.map LiveCh.id).Nodup) {r : Row} {c : LiveCh}
    (hr : r ∈ ledger) (hc : c ∈ live) (hid : r.channel_id = c.id) :
    getFirst r.channel_id (reconcile ledger live) =
      some { r with description := c.purpose,
                    name := if r.action = ChannelAction.rename.value then r.name
                            else c.name } := by
  have hrk : r ∈ ledger.filter fun r => decide (r.channel_id ∈ live.map LiveCh.id) := by
    refine List.mem_filter.mpr ⟨hr, ?_⟩
    simp only [decide_eq_true_eq, hid]
    exact List.mem_map_of_mem _ hc
  have hkn : ((ledger.filter fun r =>
      decide (r.channel_id ∈ live.map LiveCh.id)).map Row.channel_id).Nodup :=
    List.Nodup.sublist (List.Sublist.map _ (List.filter_sublist _)) hledger
  have hfirst := getFirst_of_nodup hkn hrk
  have h1 : getFirst c.id (live.foldl (fun acc c => refreshFirst c acc)
      (ledger.filter fun r => decide (r.channel_id ∈ live.map LiveCh.id))) =
      some (refreshRow r c) := by
    rw [getFirst_foldl_of_mem hlive hc, ← hid, hfirst]
    rfl
  rw [reconcile_def, hid, getFirst_append_left h1]
  simp [refreshRow, create_channel_dict, hid]

/-- Witness for C4 on the spec's scenario: B keeps its ledger name
`old-name` (rename pending) while its description is refreshed from
live. -/
theorem c4_reconcile_refresh_witness :
    getFirst rowB.channel_id (reconcile [rowA, rowB] [liveA, liveB]) =
      some { rowB with description := liveB.purpose,
                       name := if rowB.action = ChannelAction.rename.value then rowB.name
                               else liveB.name } :=
  c4_reconcile_refresh [rowA, rowB] [liveA, liveB] (by decide) (by decide)
    (by decide) (by decide) (by decide)

/-- C5: the executor's priority sort orders the pending records by
`action_priority` (rename 0 before archive 1 before everything else),
so in the sorted output no archive record precedes a rename record, and
the output is a permutation of the input batch. -/
theorem c5_priority_sort (l : List Row) :
    ((sortPending l).Pairwise fun a b => action_priority a ≤ action_priority b) ∧
    ((sortPending l).Pairwise fun a b =>
      ¬(pyLower a.action = ChannelAction.archive.value ∧
        pyLower b.action = ChannelAction.rename.value)) ∧
    (sortPending l).Perm l := by
  have hs : (sortPending l).Pairwise fun a b =>
      (decide (action_priority a ≤ action_priority b)) = true := by
    apply List.sorted_mergeSort
    · intro a b c hab hbc
      simp only [decide_eq_true_eq] at *
      omega
    · intro a b
      simp only [Bool.or_eq_true, decide_eq_true_eq]
      omega
  have h1 : (sortPending l).Pairwise fun a b => action_priority a ≤ action_priority b :=
    hs.imp (by intro a b hab; simpa using hab)
  refine ⟨h1, h1.imp ?_, List.mergeSort_perm l _⟩
  intro a b hab hc
  have ha : action_priority a = 1 := by
    unfold action_priority
    simp [hc.1, ChannelAction.value]
  have hb : action_priority b = 0 := by
    unfold action_priority
    simp [hc.2, ChannelAction.value]
  omega

/-- C6 (code-bug exhibit): on a client whose `conversations_archive` call
returns a response with `ok = false` without raising, `archive_channel`
falls off the end of its `if response["ok"]:` block and implicitly
returns `None`, so `execute_action` returns `None` instead of an Action
Outcome record — contradicting its declared `ChannelActionResult` return
type and the claim that every branch yields `{success, message}`. -/
theorem c6_archive_nonok_returns_none :
    (execute_action envArchiveNotOk "C123" "legacy" "archive" none).1 = none := by
  decide

/-- C7: a ledger row whose action is `archive` and whose `is_shared` cell
is `true` is rejected by `validate_channel` with the distinct
shared-channel error (validation is pure, so this happens before any
remote call); rows with `is_shared = true` and any non-archive action are
never rejected with that error. -/
theorem c7_shared_archive_rejected (r : Row) :
    (effAction r = ChannelAction.archive.value → pyLower r.is_shared = "true" →
      validate_channel r = Except.error (.sharedArchive r.name)) ∧
    (effAction r ≠ ChannelAction.archive.value →
      ∀ n, validate_channel r ≠ Except.error (.sharedArchive n)) := by
  constructor
  · intro h1 h2
    unfold validate_channel
    simp [h1, h2, ChannelAction.values, ChannelAction.value]
  · intro h n
    unfold validate_channel
    split_ifs with h1 h2 h3 h4 <;> simp_all [ChannelAction.value]

/-- Witness for C7: a shared archive row gets the shared-channel error,
and a shared rename row does not. -/
theorem c7_shared_archive_rejected_witness :
    validate_channel rowSharedArchive =
        Except.error (.sharedArchive rowSharedArchive.name) ∧
      validate_channel rowSharedRename ≠ Except.error (.sharedArchive "ext2") :=
  ⟨(c7_shared_archive_rejected rowSharedArchive).1 (by decide) (by decide),
   (c7_shared_archive_rejected rowSharedRename).2 (by decide) "ext2"⟩

/-- C8: for ASCII names (where Python's `str.islower`/`str.isdigit` agree
with the modelled character ranges), the rename name validation accepts
exactly the non-empty names of at most 80 characters made of lowercase
letters, digits, hyphens and underscores; every other name is rejected,
for every client environment (hence before any remote rename call), as a
failed outcome carrying the message of the violated rule. -/
theorem c8_rename_name_validation (old name : String)
    (hascii : name.data.all (fun c => c.toNat < 128) = true) :
    (renameNameError old name = none ↔
      (name ≠ "" ∧ name.length ≤ 80 ∧
        ∀ c ∈ name.data, ('a' ≤ c ∧ c ≤ 'z') ∨ ('0' ≤ c ∧ c ≤ '9') ∨ c = '-' ∨ c = '_')) ∧
    (∀ msg, renameNameError old name = some msg →
      (∀ env : ClientEnv, (rename_channel env old name).1 = Except.ok (some ⟨false, msg⟩)) ∧
      (msg = "Cannot rename " ++ old ++ ": New name cannot be empty" ∨
       msg = "Cannot rename " ++ old ++ ": New name exceeds 80 characters" ∨
       msg = "Cannot rename " ++ old ++ ": Channel names can only contain lowercase letters, " ++
         "numbers, hyphens, and underscores")) := by
  constructor
  · unfold renameNameError
    split_ifs with h1 h2 h3
    · simp [h1]
    · have hgt : ¬ name.length ≤ 80 := by omega
      simp [hgt]
    · rw [Bool.or_eq_true] at h3
      constructor
      · intro h
        simp at h
      · rintro ⟨hne, hlen, hchars⟩
        rcases h3 with h3 | h3
        · rw [Bool.not_eq_true', List.all_eq_false] at h3
          obtain ⟨c, hc, hbad⟩ := h3
          exact absurd ((renameChar_iff c).mpr (hchars c hc)) (by simp [hbad])
        · have hmem : '.' ∈ name.data := by
            simpa [List.contains, List.elem_iff] using h3
          rcases hchars '.' hmem with ⟨ha, hb⟩ | ⟨ha, hb⟩ | h | h <;> simp_all
    · simp only [Bool.or_eq_true, not_or, Bool.not_eq_true, Bool.not_eq_false] at h3
      obtain ⟨hall, hdot⟩ := h3
      have hall' : name.data.all renameChar = true := by simpa using hall
      have hchars : ∀ c ∈ name.data,
          ('a' ≤ c ∧ c ≤ 'z') ∨ ('0' ≤ c ∧ c ≤ '9') ∨ c = '-' ∨ c = '_' :=
        fun c hc => (renameChar_iff c).mp (List.all_eq_true.mp hall' c hc)
      constructor
      · intro _
        exact ⟨h1, by omega, hchars⟩
      · intro _
        rfl
  · intro msg hmsg
    constructor
    · intro env
      simp [rename_channel, hmsg]
    · unfold renameNameError at hmsg
      split_ifs at hmsg with h1 h2 h3
      · exact Or.inl (Option.some.inj hmsg).symm
      · exact Or.inr (Or.inl (Option.some.inj hmsg).symm)
      · exact Or.inr (Or.inr (Option.some.inj hmsg).symm)

/-- Witness for C8: `general` passes the name checks, and `team.chat` is
rejected with the character-set rule named, independently of the
client. -/
theorem c8_rename_name_validation_witness :
    renameNameError "old" "general" = none ∧
      (rename_channel envAllOk "old" "team.chat").1 =
        Except.ok (some ⟨false, "Cannot rename old: Channel names can only contain lowercase letters, numbers, hyphens, and underscores"⟩) :=
  ⟨(c8_rename_name_validation "old" "general" (by decide)).1.mpr (by decide),
   ((c8_rename_name_validation "old" "team.chat" (by decide)).2
     "Cannot rename old: Channel names can only contain lowercase letters, numbers, hyphens, and underscores"
     (by decide)).1 envAllOk⟩

/-- C9: with `dry_run` set, `process_single_channel` returns the success
status with an empty effect trace (no remote call, no delay) for every
client and record, and `get_all_channels` never performs the cache
write. -/
theorem c9_dry_run_frame :
    (∀ (env : ClientEnv) (ch : Row), process_single_channel env ch true = ("success", [])) ∧
    (∀ (env : EnumEnv) (u f : Bool), Effect.saveCache ∉ (get_all_channels env u f true).2) := by
  constructor
  · intro env ch
    rfl
  · intro env u f
    unfold get_all_channels
    simp [List.mem_append, List.mem_map]

/-- C10: a row whose action cell is empty (or missing, read back as the
empty string) is validated as a `keep` row: it passes `validate_channel`
exactly when its target is empty, and a non-empty target is rejected with
the `keep` target-must-be-empty error, not with an unrecognised-action
error. -/
theorem c10_empty_action_defaults_keep (r : Row) (h : r.action = "") :
    (validate_channel r = Except.ok () ↔ r.target_value = "") ∧
    (r.target_value ≠ "" →
      validate_channel r = Except.error (.targetMustBeEmpty ChannelAction.keep.value r.name)) := by
  have he : effAction r = ChannelAction.keep.value := by
    unfold effAction
    rw [h]
    rfl
  constructor
  · unfold validate_channel
    rw [he]
    split_ifs with h1 h2 h3 h4 <;> simp_all [ChannelAction.values, ChannelAction.value]
  · intro ht
    unfold validate_channel
    rw [he]
    split_ifs with h1 h2 h3 h4 <;> simp_all [ChannelAction.values, ChannelAction.value]

/-- Witness for C10: an empty-action row with an empty target passes, and
one with a target is rejected with the keep target-must-be-empty
error. -/
theorem c10_empty_action_defaults_keep_witness :
    validate_channel rowEmptyAction = Except.ok () ∧
      validate_channel rowEmptyActionTarget =
        Except.error (.targetMustBeEmpty ChannelAction.keep.value rowEmptyActionTarget.name) :=
  ⟨(c10_empty_action_defaults_keep rowEmptyAction rfl).1.mpr rfl,
   (c10_empty_action_defaults_keep rowEmptyActionTarget rfl).2 (by decide)⟩

end SlackCleanup
